import Mathlib

/-!
# Skytable QL parser and SDSS v1 storage driver: shallow embedding

This file embeds, in Lean 4, the parts of the Skytable repository needed to
settle the claims about the BlueQL parser state (`engine/ql/ast/mod.rs`), the
DDL sub-parsers (`engine/ql/ddl.rs`, `engine/ql/ddl/drop.rs`), the statement
compiler, and the SDSS v1 file driver (`engine/storage/v1/rw.rs`).

Conventions of the embedding:
* Rust `usize` arithmetic is `Nat`; an arithmetic underflow or an
  out-of-bounds slice index (a Rust panic) is modelled by returning `none`
  from an `Option`-valued function.  A function that cannot panic returns a
  plain value.
* Byte slices (`&[u8]` identifiers) are modelled as `String`.
* The lexer module (`engine/ql/lex`) is not part of the provided sources;
  the token type and its equality are modelled from the spec (see `Token`).
-/

set_option maxRecDepth 4096

namespace Skytable

/-- Keywords used by the statements under study (spec §3 "Token"). -/
inductive Keyword where
  | kwUse | kwCreate | kwAlter | kwDrop | kwModel | kwSpace
  | kwInsert | kwSelect | kwUpdate | kwDelete
  deriving DecidableEq, BEq, Repr

/-- Symbols used by the statements under study (spec §3 "Token"). -/
inductive Symbol where
  | symDot | symComma | symParenOpen | symParenClose | symSemicolon | symEq
  deriving DecidableEq, BEq, Repr

/-- Literal tokens (payload shape is irrelevant to the claims). -/
inductive LitTok where
  | litStr (s : String)
  | litUInt (n : Nat)
  | litBool (b : Bool)
  | litNull
  deriving DecidableEq, BEq, Repr

/-- Modelled from the spec: the token type of the lexer
(`engine/ql/lex`, not among the provided sources).  A tagged variant over
identifier, keyword, symbol, literal, placeholder and `IgnorableComma`
(spec §3 "Token"). -/
inductive Token where
  | ident (s : String)
  | kw (k : Keyword)
  | sym (s : Symbol)
  | lit (l : LitTok)
  | placeholder
  | ignorableComma
  deriving DecidableEq, BEq, Repr

/-- ASCII-lowercase a character, mirroring `u8::to_ascii_lowercase`. -/
def lowerChar (c : Char) : Char :=
  if 65 ≤ c.toNat ∧ c.toNat ≤ 90 then Char.ofNat (c.toNat + 32) else c

/-- Modelled from the spec: identifier equality.  The spec specifies the
trailing `force` identifier is matched case-insensitively (spec §3
"DropModel / DropSpace", §4.5), and keyword recognition is case-insensitive
(spec §4.1); the lexer sources defining `Ident`'s equality are not provided,
so identifier comparison is modelled as ASCII-case-insensitive equality. -/
def identEq (a b : String) : Bool :=
  a.data.map lowerChar == b.data.map lowerChar

/-- Token equality (`PartialEq` on `Token`); identifiers compare with
`identEq`, every other variant compares structurally. -/
def tokenEq : Token → Token → Bool
  | .ident a, .ident b => identEq a b
  | .kw a, .kw b => a == b
  | .sym a, .sym b => a == b
  | .lit a, .lit b => a == b
  | .placeholder, .placeholder => true
  | .ignorableComma, .ignorableComma => true
  | _, _ => false

/-- `Token::is_ident`. -/
def Token.isIdent : Token → Bool
  | .ident _ => true
  | _ => false

/-- The parser state `State<'a, Qd>` (ast/mod.rs:55-60): token slice `t`,
cursor `i`, poison flag `f`.  The query-data adapter `d` carries no state
for the inline adapter used by all claims and is omitted. -/
structure PState where
  t : List Token
  i : Nat
  f : Bool
  deriving DecidableEq, Repr

/-- `State::new` (ast/mod.rs:71-78): cursor 0, flag `true`. -/
def PState.new (t : List Token) : PState := ⟨t, 0, true⟩

/-- `State::okay` (ast/mod.rs:81-83). -/
def okay (s : PState) : Bool := s.f

/-- `State::poison` (ast/mod.rs:86-88). -/
def poison (s : PState) : PState := { s with f := false }

/-- `State::poison_if` (ast/mod.rs:91-93): `f &= !fuse`. -/
def poisonIf (s : PState) (fuse : Bool) : PState := { s with f := s.f && !fuse }

/-- `State::poison_if_not` (ast/mod.rs:96-98). -/
def poisonIfNot (s : PState) (fuse : Bool) : PState := poisonIf s (!fuse)

/-- `State::cursor_ahead_by` (ast/mod.rs:106-108). -/
def cursorAheadBy (s : PState) (by_ : Nat) : PState := { s with i := s.i + by_ }

/-- `State::cursor_ahead` (ast/mod.rs:101-103). -/
def cursorAhead (s : PState) : PState := cursorAheadBy s 1

/-- `State::cursor_ahead_if` (ast/mod.rs:111-113): advance by `iff as usize`. -/
def cursorAheadIf (s : PState) (iff_ : Bool) : PState :=
  cursorAheadBy s (if iff_ then 1 else 0)

/-- `State::read` (ast/mod.rs:116-118): `&self.t[self.i]`; `none` models the
index panic when the cursor is out of bounds. -/
def readTok (s : PState) : Option Token := s.t[s.i]?

/-- `State::current` (ast/mod.rs:121-123): `&self.t[self.i..]`; slicing past
the end panics. -/
def currentTok (s : PState) : Option (List Token) :=
  if s.i ≤ s.t.length then some (s.t.drop s.i) else none

/-- `State::remaining` (ast/mod.rs:126-128): `self.t.len() - self.i`; usize
underflow (cursor past the end) models as `none`. -/
def remaining (s : PState) : Option Nat :=
  if s.i ≤ s.t.length then some (s.t.length - s.i) else none

/-- `State::fw_read` (ast/mod.rs:131-135). -/
def fwRead (s : PState) : Option (Token × PState) :=
  match readTok s with
  | some tk => some (tk, cursorAhead s)
  | none => none

/-- `State::has_remaining` (ast/mod.rs:138-140). -/
def hasRemaining (s : PState) (many : Nat) : Option Bool :=
  (remaining s).map (fun r => decide (many ≤ r))

/-- `State::exhausted` (ast/mod.rs:143-145). -/
def exhausted (s : PState) : Option Bool :=
  (remaining s).map (fun r => r == 0)

/-- `State::not_exhausted` (ast/mod.rs:148-150). -/
def notExhausted (s : PState) : Option Bool :=
  (remaining s).map (fun r => !(r == 0))

/-- `minidx` (ast/mod.rs:49-51): `min(src.len() - 1, index)`.  On an empty
slice the subtraction underflows (debug panic; the wrapped release value
makes every subsequent index panic), modelled as `none`. -/
def minidx (t : List Token) (index : Nat) : Option Nat :=
  if t.length = 0 then none else some (min (t.length - 1) index)

/-- `State::cursor_rounded_eq` (ast/mod.rs:181-184):
`self.t[mx] == tok && mx == self.i`. -/
def cursorRoundedEq (s : PState) (tok : Token) : Option Bool :=
  match minidx s.t s.i with
  | none => none
  | some mx =>
    match s.t[mx]? with
    | none => none
    | some x => some (tokenEq x tok && (mx == s.i))

/-- `State::cursor_has_ident_rounded` (ast/mod.rs:206-208):
`self.t[minidx(self.t, self.i)].is_ident() && self.not_exhausted()`. -/
def cursorHasIdentRounded (s : PState) : Option Bool :=
  match minidx s.t s.i with
  | none => none
  | some mx =>
    match s.t[mx]?, notExhausted s with
    | some x, some ne => some (x.isIdent && ne)
    | _, _ => none

/-- `State::cursor_signature_match_fn_arity0_rounded` (ast/mod.rs:213-222). -/
def cursorSignatureMatchFnArity0Rounded (s : PState) : Option Bool :=
  match hasRemaining s 3 with
  | none => none
  | some rem =>
    let remU := if rem then 1 else 0
    match s.t[s.i * remU]?, s.t[(s.i + 1) * remU]?,
        s.t[(s.i + 2) * remU]? with
    | some a, some b, some c =>
        some (a.isIdent && tokenEq b (.sym .symParenOpen) &&
          tokenEq c (.sym .symParenClose) && rem)
    | _, _, _ => none

/-- `State::cursor_signature_match_entity_full_rounded` (ast/mod.rs:227-234). -/
def cursorSignatureMatchEntityFullRounded (s : PState) : Option Bool :=
  match hasRemaining s 3 with
  | none => none
  | some rem =>
    let remU := if rem then 1 else 0
    match s.t[s.i * remU]?, s.t[(s.i + 1) * remU]?,
        s.t[(s.i + 2) * remU]? with
    | some a, some b, some c =>
        some (a.isIdent && tokenEq b (.sym .symDot) && c.isIdent && rem)
    | _, _, _ => none

/-- `State::cursor_back_by` (ast/mod.rs:202-204): `self.i -= by`; underflow
models as `none`. -/
def cursorBackBy (s : PState) (by_ : Nat) : Option PState :=
  if by_ ≤ s.i then some { s with i := s.i - by_ } else none

/-- `State::cursor_back` (ast/mod.rs:197-199). -/
def cursorBack (s : PState) : Option PState := cursorBackBy s 1

/-- `State::cursor_is_ident` (ast/mod.rs:267-269): `self.read().is_ident()`. -/
def cursorIsIdent (s : PState) : Option Bool :=
  (readTok s).map Token.isIdent

/-- The `LangError` kinds surfaced by the statements under study
(spec §7; `engine/error`). -/
inductive LangError where
  | UnexpectedEOS
  | UnexpectedEndofStatement
  | ExpectedStatement
  | ExpectedEntity
  | UnexpectedToken
  | StmtUnknownCreate
  | StmtUnknownAlter
  deriving DecidableEq, Repr

/-- `Entity` (ast/mod.rs:359-376). -/
inductive Entity where
  | Single (s : String)
  | Full (space model : String)
  deriving DecidableEq, Repr

/-- Project the identifier payload out of a token; `none` mirrors the
unreachable arm of the `extract!` macro. -/
def tokenIdentName : Token → Option String
  | .ident s => some s
  | _ => none

/-- `Entity::full_entity_from_slice` (ast/mod.rs:386-391): unchecked reads of
`sl[0]` and `sl[2]` as identifiers. -/
def fullEntityFromSlice (sl : List Token) : Option Entity :=
  match sl[0]?, sl[2]? with
  | some t0, some t2 =>
    match tokenIdentName t0, tokenIdentName t2 with
    | some a, some c => some (.Full a c)
    | _, _ => none
  | _, _ => none

/-- `Entity::single_entity_from_slice` (ast/mod.rs:399-401). -/
def singleEntityFromSlice (sl : List Token) : Option Entity :=
  match sl[0]? with
  | some t0 => (tokenIdentName t0).map .Single
  | none => none

/-- `Entity::attempt_process_entity` (ast/mod.rs:449-466).  The second
component of the result is the `MaybeInit` output (`none` = uninitialized). -/
def attemptProcessEntity (s : PState) : Option (PState × Option Entity) :=
  match currentTok s with
  | none => none
  | some tok =>
    match cursorSignatureMatchEntityFullRounded s, cursorHasIdentRounded s with
    | some isFull, some isSingle =>
      let step : Option (PState × Option Entity) :=
        if isFull then
          (fullEntityFromSlice tok).map (fun e => (cursorAheadBy s 3, some e))
        else if isSingle then
          (singleEntityFromSlice tok).map (fun e => (cursorAhead s, some e))
        else some (s, none)
      step.map (fun p => (poisonIfNot p.1 (isFull || isSingle), p.2))
    | _, _ => none

/-- `Entity::attempt_process_entity_result` (ast/mod.rs:434-447): the
`assume_init` of an uninitialized output (unreachable when `okay`) models
as `none`. -/
def attemptProcessEntityResult (s : PState) :
    Option (PState × Except LangError Entity) :=
  match attemptProcessEntity s with
  | none => none
  | some (s1, d) =>
    if okay s1 then
      match d with
      | some e => some (s1, .ok e)
      | none => none
    else some (s1, .error .ExpectedEntity)

/-- `DropSpace` (ddl/drop.rs:35-38). -/
structure DropSpace where
  space : String
  force : Bool
  deriving DecidableEq, Repr

/-- `DropModel` (ddl/drop.rs:68-71). -/
structure DropModel where
  entity : Entity
  force : Bool
  deriving DecidableEq, Repr

/-- `DropModel::parse` (ddl/drop.rs:78-87). -/
def dropModelParse (s : PState) : Option (PState × Except LangError DropModel) :=
  match attemptProcessEntityResult s with
  | none => none
  | some (s1, .error e) => some (s1, .error e)
  | some (s1, .ok ent) =>
    match cursorRoundedEq s1 (.ident "force") with
    | none => none
    | some force =>
      let s2 := cursorAheadIf s1 force
      match exhausted s2 with
      | none => none
      | some ex =>
        if ex then some (s2, .ok ⟨ent, force⟩)
        else some (s2, .error .UnexpectedToken)

/-- `DropSpace::parse` (ddl/drop.rs:46-64). -/
def dropSpaceParse (s : PState) : Option (PState × Except LangError DropSpace) :=
  match cursorIsIdent s with
  | none => none
  | some ci =>
    if ci then
      match fwRead s with
      | none => none
      | some (idTok, s1) =>
        match cursorRoundedEq s1 (.ident "force") with
        | none => none
        | some force =>
          let s2 := cursorAheadIf s1 force
          match exhausted s2 with
          | none => none
          | some ex =>
            if ex then
              match tokenIdentName idTok with
              | some sp => some (s2, .ok ⟨sp, force⟩)
              | none => none
            else some (s2, .error .UnexpectedToken)
    else some (s, .error .UnexpectedToken)

/-- The `Statement` sum (ast/mod.rs:490-527).  The `foreignStmt` constructor
marks a dispatch into a sub-parser (create/alter bodies, DML bodies) whose
code is not among the provided sources; no claim exercises those branches. -/
inductive Statement where
  | Use (e : Entity)
  | DropModelStmt (d : DropModel)
  | DropSpaceStmt (d : DropSpace)
  | InspectSpace (s : String)
  | InspectModel (e : Entity)
  | InspectSpaces
  | foreignStmt (tag : String)
  deriving DecidableEq, Repr

/-- `parse_drop` (ddl/drop.rs:94-100), the variant dispatched by `compile`. -/
def parseDrop (s : PState) : Option (PState × Except LangError Statement) :=
  match fwRead s with
  | none => none
  | some (tk, s1) =>
    match tk with
    | .kw .kwModel =>
      (dropModelParse s1).map (fun p => (p.1, p.2.map .DropModelStmt))
    | .kw .kwSpace =>
      (dropSpaceParse s1).map (fun p => (p.1, p.2.map .DropSpaceStmt))
    | _ => some (s1, .error .UnexpectedToken)

/-- The fall-through arm of `parse_inspect` (ddl.rs:139-142): back the cursor
one step and return `ExpectedStatement`. -/
def inspectFallback (s1 : PState) : Option (PState × Except LangError Statement) :=
  match cursorBack s1 with
  | some s2 => some (s2, .error .ExpectedStatement)
  | none => none

/-- `parse_inspect` (ddl.rs:113-144). -/
def parseInspect (s : PState) : Option (PState × Except LangError Statement) :=
  match remaining s with
  | none => none
  | some r =>
    if r < 1 then some (s, .error .UnexpectedEndofStatement)
    else
      match fwRead s with
      | none => none
      | some (tk, s1) =>
        match tk with
        | .kw .kwModel =>
          (attemptProcessEntityResult s1).map
            (fun p => (p.1, p.2.map .InspectModel))
        | .kw .kwSpace =>
          match cursorHasIdentRounded s1 with
          | none => none
          | some g =>
            if g then
              match fwRead s1 with
              | none => none
              | some (tk2, s2) =>
                match tokenIdentName tk2 with
                | some sp => some (s2, .ok (.InspectSpace sp))
                | none => none
            else inspectFallback s1
        | .ident id =>
          match exhausted s1 with
          | none => none
          | some ex =>
            if identEq id "spaces" && ex then some (s1, .ok .InspectSpaces)
            else inspectFallback s1
        | _ => inspectFallback s1

instance exceptDecEq {ε α : Type} [DecidableEq ε] [DecidableEq α] :
    DecidableEq (Except ε α) := fun a b =>
  match a, b with
  | .ok x, .ok y =>
    if h : x = y then .isTrue (by rw [h]) else .isFalse (by simp [h])
  | .error x, .error y =>
    if h : x = y then .isTrue (by rw [h]) else .isFalse (by simp [h])
  | .ok _, .error _ => .isFalse (by simp)
  | .error _, .ok _ => .isFalse (by simp)

/-- The outcome of `compile`: either a result or a dispatch into a
sub-parser whose code is not among the provided sources. -/
inductive CompileResult where
  | result (r : Except LangError Statement)
  | foreignParse (tag : String)
  deriving DecidableEq, Repr

/-- `compile` (ast/mod.rs:535-564) for the inline query-data adapter. -/
def compile (tok : List Token) : Option CompileResult :=
  if tok.length < 2 then some (.result (.error .UnexpectedEOS))
  else
    match fwRead (PState.new tok) with
    | none => none
    | some (tk, s1) =>
      match tk with
      | .kw .kwUse =>
        (attemptProcessEntityResult s1).map
          (fun p => .result (p.2.map Statement.Use))
      | .kw .kwCreate =>
        match fwRead s1 with
        | none => none
        | some (tk2, _) =>
          match tk2 with
          | .kw .kwModel => some (.foreignParse "create model")
          | .kw .kwSpace => some (.foreignParse "create space")
          | _ => some (.result (.error .StmtUnknownCreate))
      | .kw .kwAlter =>
        match fwRead s1 with
        | none => none
        | some (tk2, _) =>
          match tk2 with
          | .kw .kwModel => some (.foreignParse "alter model")
          | .kw .kwSpace => some (.foreignParse "alter space")
          | _ => some (.result (.error .StmtUnknownAlter))
      | .kw .kwDrop =>
        match remaining s1 with
        | none => none
        | some r =>
          if 2 ≤ r then (parseDrop s1).map (fun p => .result p.2)
          else some (.result (.error .ExpectedStatement))
      | .ident id =>
        if identEq id "inspect" then (parseInspect s1).map (fun p => .result p.2)
        else some (.result (.error .ExpectedStatement))
      | .kw .kwInsert => some (.foreignParse "insert")
      | .kw .kwSelect => some (.foreignParse "select")
      | .kw .kwUpdate => some (.foreignParse "update")
      | .kw .kwDelete => some (.foreignParse "delete")
      | _ => some (.result (.error .ExpectedStatement))

/-!
## SDSS v1 storage

`engine/storage/v1/rw.rs` is among the provided sources; the header
implementation (`header_impl`: `SDSSHeader`, `SDSSHeaderRaw`, the enums) is
not, so it is modelled from the spec (§4.7).
-/

/-- Modelled from the spec: `FileScope` (spec §3, §4.7; `header_impl` is not
among the provided sources). -/
inductive FileScope where
  | Journal
  | DataBatch
  deriving DecidableEq, Repr

/-- Modelled from the spec: `FileSpecifier` (spec §3, §6; `header_impl` is
not among the provided sources). -/
inductive FileSpecifier where
  | GNSTxn
  | DataBatchFile
  deriving DecidableEq, Repr

/-- Modelled from the spec: `HostRunMode` (spec §3 "Dynamic record"). -/
inductive HostRunMode where
  | Dev
  | Prod
  deriving DecidableEq, Repr

/-- 2-byte enum code of a file scope (spec §4.7 field layout). -/
def scopeCode : FileScope → Nat
  | .Journal => 0
  | .DataBatch => 1

/-- 2-byte enum code of a file specifier (spec §4.7 field layout). -/
def specifierCode : FileSpecifier → Nat
  | .GNSTxn => 0
  | .DataBatchFile => 1

/-- 1-byte code of a host run mode (spec §4.7 field layout). -/
def runModeCode : HostRunMode → Nat
  | .Dev => 0
  | .Prod => 1

/-- Modelled from the spec: the decoded SDSS header (spec §3 "SDSS Header":
static record scope/specifier/specifier-version, dynamic record host setting
version, run mode, startup counter, modify counter). -/
structure SDSSHeader where
  scope : FileScope
  specifier : FileSpecifier
  specifierVersion : Nat
  hostSettingVersion : Nat
  hostRunMode : HostRunMode
  hostStartupCounter : Nat
  modifyCount : Nat
  deriving DecidableEq, Repr

/-- Little-endian byte encoding of `value` over `width` bytes. -/
def leBytes (value width : Nat) : List Nat :=
  (List.range width).map fun k => value / 256 ^ k % 256

/-- Little-endian read of `w` bytes at offset `off`. -/
def readLE (b : List Nat) (off w : Nat) : Nat :=
  (((b.drop off).take w).reverse).foldl (fun acc x => acc * 256 + x) 0

/-- Modelled from the spec: the 8 magic bytes (spec §4.7; the concrete magic
constant lives in `header_impl`, not among the provided sources, so a fixed
arbitrary constant is used). -/
def magicBytes : List Nat := [0x53, 0x44, 0x53, 0x53, 0x48, 0x44, 0x52, 0x31]

/-- Modelled from the spec: header-format version (spec §4.7 field 1). -/
def headerFormatVersion : Nat := 1

/-- Modelled from the spec: total encoded header size.  Spec §4.7: section 1
is 8+2+1+1+4 = 16 bytes, section 2 is 2+2+4+8 = 16 bytes, section 3 is
4+1+8+8 = 21 bytes padded to a multiple of 16, i.e. 32; 64 bytes total. -/
def headerSize : Nat := 64

/-- Modelled from the spec: `SDSSHeaderRaw::new_auto(..).array()` — the
fixed-size little-endian byte-packed encoding of a header (spec §4.7). -/
def headerEncode (h : SDSSHeader) : List Nat :=
  magicBytes ++ leBytes headerFormatVersion 2 ++ [0] ++ [0] ++ leBytes 0 4 ++
  leBytes (scopeCode h.scope) 2 ++ leBytes (specifierCode h.specifier) 2 ++
  leBytes h.specifierVersion 4 ++ leBytes 0 8 ++
  leBytes h.hostSettingVersion 4 ++ [runModeCode h.hostRunMode] ++
  leBytes h.hostStartupCounter 8 ++ leBytes h.modifyCount 8 ++ leBytes 0 11

/-- Decode a 2-byte scope code. -/
def decodeScope (n : Nat) : Option FileScope :=
  if n = 0 then some .Journal else if n = 1 then some .DataBatch else none

/-- Decode a 2-byte specifier code. -/
def decodeSpecifier (n : Nat) : Option FileSpecifier :=
  if n = 0 then some .GNSTxn else if n = 1 then some .DataBatchFile else none

/-- Decode a 1-byte run-mode code. -/
def decodeRunMode (n : Nat) : Option HostRunMode :=
  if n = 0 then some .Dev else if n = 1 then some .Prod else none

/-- Modelled from the spec: `SDSSHeaderRaw::decode_noverify` — `none` on
magic or header-format mismatch, otherwise the decoded header (spec §4.7). -/
def decodeNoverify (b : List Nat) : Option SDSSHeader :=
  if b.length = headerSize ∧ b.take 8 = magicBytes ∧
      readLE b 8 2 = headerFormatVersion then
    match decodeScope (readLE b 16 2), decodeSpecifier (readLE b 18 2),
        decodeRunMode (readLE b 36 1) with
    | some sc, some sp, some md =>
      some ⟨sc, sp, readLE b 20 4, readLE b 32 4, md, readLE b 37 8, readLE b 45 8⟩
    | _, _, _ => none
  else none

/-- The storage error kinds relevant to the driver (spec §7). -/
inductive SDSSError where
  | IoError
  | CorruptedHeader
  | HeaderMismatch
  deriving DecidableEq, Repr

/-- Modelled from the spec: `SDSSHeader::verify(scope, spec, spec_ver)` —
`HeaderMismatch` unless the tuple matches (spec §4.7, rw.rs:138). -/
def headerVerify (h : SDSSHeader) (scope : FileScope) (spec : FileSpecifier)
    (specVer : Nat) : Except SDSSError Unit :=
  if h.scope = scope ∧ h.specifier = spec ∧ h.specifierVersion = specVer then
    .ok ()
  else .error .HeaderMismatch

/-- Modelled from the spec: `dr_rs_mut().bump_modify_count()` adds 1 to the
modify counter (spec §4.7). -/
def bumpModifyCount (h : SDSSHeader) : SDSSHeader :=
  { h with modifyCount := h.modifyCount + 1 }

/-- A file as seen through `RawFileIOInterface` for `std::fs::File`
(rw.rs:63-96): its byte contents plus the read/write position.  `File`
keeps one shared position; `read_exact` and `write_all` advance it, and
`seek(SeekFrom::Start(by))` (`fseek_ahead`) sets it. -/
structure VFile where
  data : List Nat
  pos : Nat
  deriving DecidableEq, Repr

/-- `fread_exact` (rw.rs:77-80): read exactly `n` bytes at the position,
advancing it; a short read errors without a useful payload, collapsed here
into `none`. -/
def freadExact (f : VFile) (n : Nat) : Option (List Nat × VFile) :=
  if f.pos + n ≤ f.data.length then
    some ((f.data.drop f.pos).take n, { f with pos := f.pos + n })
  else none

/-- `fwrite_all` (rw.rs:81-84): overwrite `b` at the current position,
extending the file as needed, and advance the position. -/
def fwriteAll (f : VFile) (b : List Nat) : VFile :=
  { data := f.data.take f.pos ++ List.replicate (f.pos - f.data.length) 0 ++
      b ++ f.data.drop (f.pos + b.length),
    pos := f.pos + b.length }

/-- `fsync_all` (rw.rs:85-88): durability barrier, no state change. -/
def fsyncAll (f : VFile) : VFile := f

/-- `fseek_ahead` (rw.rs:92-95): `seek(SeekFrom::Start(by))`. -/
def fseekAhead (f : VFile) (by_ : Nat) : VFile := { f with pos := by_ }

/-- `flen` (rw.rs:89-91). -/
def flen (f : VFile) : Nat := f.data.length

/-- `SDSSFileIO::fsynced_write` (rw.rs:161-164): write all, then fsync. -/
def fsyncedWrite (f : VFile) (b : List Nat) : VFile := fsyncAll (fwriteAll f b)

/-- `RawFileOpen` (rw.rs:48-52).  Whether `fopen_or_create_rw` yields
`Created` or `Existing` is decided by OS metadata (`ctime == mtime`,
rw.rs:70-75), which the embedding takes as an input. -/
inductive RawFileOpen where
  | Created (f : VFile)
  | Existing (f : VFile)
  deriving DecidableEq, Repr

/-- `FileOpen` (rw.rs:41-46). -/
inductive FileOpen where
  | Created (f : VFile)
  | Existing (f : VFile) (header : SDSSHeader)
  deriving DecidableEq, Repr

/-- The `Created` branch of `SDSSFileIO::open_or_create_perm_rw`
(rw.rs:115-130): build the header with modify counter 0 and synced-write it. -/
def sdssCreatedPath (f : VFile) (scope : FileScope) (spec : FileSpecifier)
    (specVer hostVer : Nat) (mode : HostRunMode) (startup : Nat) : VFile :=
  fsyncedWrite f (headerEncode ⟨scope, spec, specVer, hostVer, mode, startup, 0⟩)

/-- The `Existing` branch of `SDSSFileIO::open_or_create_perm_rw`
(rw.rs:131-145): read one header's worth (which advances the file position
to `headerSize`), decode, verify, bump the modify counter of a clone, and
synced-write the new header **at the current position** — the source
performs no seek back to offset 0 before the write. -/
def sdssExistingPath (f : VFile) (scope : FileScope) (spec : FileSpecifier)
    (specVer : Nat) : Except SDSSError (VFile × SDSSHeader) :=
  match freadExact f headerSize with
  | none => .error .IoError
  | some (raw, f1) =>
    match decodeNoverify raw with
    | none => .error .CorruptedHeader
    | some header =>
      match headerVerify header scope spec specVer with
      | .error e => .error e
      | .ok _ =>
        let newHeader := bumpModifyCount header
        let f2 := fsyncedWrite f1 (headerEncode newHeader)
        .ok (f2, header)

/-- `SDSSFileIO::open_or_create_perm_rw` (rw.rs:104-147), taking the
`RawFileOpen` branch outcome as input. -/
def openOrCreatePermRw (raw : RawFileOpen) (scope : FileScope)
    (spec : FileSpecifier) (specVer hostVer : Nat) (mode : HostRunMode)
    (startup : Nat) : Except SDSSError FileOpen :=
  match raw with
  | .Created f => .ok (.Created (sdssCreatedPath f scope spec specVer hostVer mode startup))
  | .Existing f =>
    match sdssExistingPath f scope spec specVer with
    | .error e => .error e
    | .ok (f2, header) => .ok (.Existing f2 header)

/-- The header used by the spec's end-to-end scenario 6 (spec §8):
`(scope=Journal, spec=GNSTxn, spec_ver=1, host_ver=3, mode=Prod,
startup_ctr=42)` with modify counter 0. -/
def gnsHeaderSample : SDSSHeader := ⟨.Journal, .GNSTxn, 1, 3, .Prod, 42, 0⟩

/-!
## Specification-side predicates

Direct descriptions of what the rounded helpers are supposed to compute,
used to state the claims.
-/

/-- "The current token equals `tok`": the spec-side reading of
`cursor_rounded_eq` with out-of-range treated as no match. -/
def cursorEqPat (t : List Token) (i : Nat) (tok : Token) : Bool :=
  match t[i]? with
  | some x => tokenEq x tok
  | none => false

/-- "The next token is an identifier". -/
def singlePat (t : List Token) (i : Nat) : Bool :=
  match t[i]? with
  | some x => x.isIdent
  | none => false

/-- "The next three tokens are `ident '.' ident`". -/
def entityFullPat (t : List Token) (i : Nat) : Bool :=
  match t[i]?, t[i + 1]?, t[i + 2]? with
  | some a, some b, some c => a.isIdent && tokenEq b (.sym .symDot) && c.isIdent
  | _, _, _ => false

/-- "The next three tokens are `ident '(' ')'`". -/
def fnArity0Pat (t : List Token) (i : Nat) : Bool :=
  match t[i]?, t[i + 1]?, t[i + 2]? with
  | some a, some b, some c =>
    a.isIdent && tokenEq b (.sym .symParenOpen) && tokenEq c (.sym .symParenClose)
  | _, _, _ => false

/-- "The trailing tokens would extend a single entity into a full one":
they start with `'.' ident`. -/
def fullExtension : List Token → Bool
  | .sym .symDot :: t2 :: _ => t2.isIdent
  | _ => false

/-- The `State` operations of ast/mod.rs that mutate the state, as data
(for the poison-monotonicity claim). -/
inductive StateOp where
  | opPoison
  | opPoisonIf (b : Bool)
  | opPoisonIfNot (b : Bool)
  | opCursorAhead
  | opCursorAheadBy (n : Nat)
  | opCursorAheadIf (b : Bool)
  | opCursorBack
  | opCursorBackBy (n : Nat)
  | opFwRead
  deriving DecidableEq, Repr

/-- Apply a `State` operation; `none` models a panic (out-of-bounds read of
`fw_read`, usize underflow of `cursor_back_by`). -/
def applyOp : StateOp → PState → Option PState
  | .opPoison, s => some (poison s)
  | .opPoisonIf b, s => some (poisonIf s b)
  | .opPoisonIfNot b, s => some (poisonIfNot s b)
  | .opCursorAhead, s => some (cursorAhead s)
  | .opCursorAheadBy n, s => some (cursorAheadBy s n)
  | .opCursorAheadIf b, s => some (cursorAheadIf s b)
  | .opCursorBack, s => cursorBack s
  | .opCursorBackBy n, s => cursorBackBy s n
  | .opFwRead, s => (fwRead s).map Prod.snd

/-!
## Characterization lemmas for the rounded helpers
-/

theorem remaining_eq {s : PState} (h2 : s.i ≤ s.t.length) :
    remaining s = some (s.t.length - s.i) := by
  unfold remaining
  rw [if_pos h2]

theorem notExhausted_eq {s : PState} (h2 : s.i ≤ s.t.length) :
    notExhausted s = some (!(s.t.length - s.i == 0)) := by
  unfold notExhausted
  rw [remaining_eq h2, Option.map_some']

theorem exhausted_eq {s : PState} (h2 : s.i ≤ s.t.length) :
    exhausted s = some (s.t.length - s.i == 0) := by
  unfold exhausted
  rw [remaining_eq h2, Option.map_some']

theorem hasRemaining_eq {s : PState} (many : Nat) (h2 : s.i ≤ s.t.length) :
    hasRemaining s many = some (decide (many ≤ s.t.length - s.i)) := by
  unfold hasRemaining
  rw [remaining_eq h2, Option.map_some']

theorem minidx_of_lt {t : List Token} {i : Nat} (h : i < t.length) :
    minidx t i = some i := by
  unfold minidx
  rw [if_neg (by omega)]
  congr 1
  exact Nat.min_eq_right (by omega)

theorem minidx_of_le {t : List Token} {i : Nat} (h0 : t ≠ []) (h : t.length ≤ i) :
    minidx t i = some (t.length - 1) := by
  have hlen : 0 < t.length := List.length_pos.mpr h0
  unfold minidx
  rw [if_neg (by omega)]
  congr 1
  exact Nat.min_eq_left (by omega)

theorem cursorRoundedEq_char (s : PState) (tok : Token) (h0 : s.t ≠ []) :
    cursorRoundedEq s tok = some (cursorEqPat s.t s.i tok) := by
  have hlen : 0 < s.t.length := List.length_pos.mpr h0
  by_cases hi : s.i < s.t.length
  · unfold cursorRoundedEq cursorEqPat
    rw [minidx_of_lt hi]
    rcases hx : s.t[s.i]? with _ | x
    · rw [List.getElem?_eq_none_iff] at hx
      omega
    · simp [hx]
  · unfold cursorRoundedEq cursorEqPat
    rw [minidx_of_le h0 (by omega)]
    have hx : s.t[s.t.length - 1]? = some (s.t.get ⟨s.t.length - 1, by omega⟩) := by
      simp
    have hnone : s.t[s.i]? = none := List.getElem?_eq_none (by omega)
    have hne : ((s.t.length - 1 : Nat) == s.i) = false :=
      beq_eq_false_iff_ne.mpr (by omega)
    simp [hx, hnone, hne]

theorem cursorHasIdentRounded_char (s : PState) (h0 : s.t ≠ [])
    (h2 : s.i ≤ s.t.length) :
    cursorHasIdentRounded s = some (singlePat s.t s.i) := by
  have hlen : 0 < s.t.length := List.length_pos.mpr h0
  by_cases hi : s.i < s.t.length
  · unfold cursorHasIdentRounded singlePat
    rw [minidx_of_lt hi, notExhausted_eq h2]
    rcases hx : s.t[s.i]? with _ | x
    · rw [List.getElem?_eq_none_iff] at hx
      omega
    · have hz : ((s.t.length - s.i : Nat) == 0) = false :=
        beq_eq_false_iff_ne.mpr (by omega)
      simp [hx, hz]
  · unfold cursorHasIdentRounded singlePat
    rw [minidx_of_le h0 (by omega), notExhausted_eq h2]
    have hx : s.t[s.t.length - 1]? = some (s.t.get ⟨s.t.length - 1, by omega⟩) := by
      simp
    have hnone : s.t[s.i]? = none := List.getElem?_eq_none (by omega)
    have hz : ((s.t.length - s.i : Nat) == 0) = true := by
      have : s.t.length - s.i = 0 := by omega
      simp [this]
    simp [hx, hnone, hz]

theorem sigEntityFull_char (s : PState) (h0 : s.t ≠ []) (h2 : s.i ≤ s.t.length) :
    cursorSignatureMatchEntityFullRounded s =
      some (entityFullPat s.t s.i) := by
  have hlen : 0 < s.t.length := List.length_pos.mpr h0
  unfold cursorSignatureMatchEntityFullRounded entityFullPat
  rw [hasRemaining_eq 3 h2]
  by_cases hr : 3 ≤ s.t.length - s.i
  · have hd : decide (3 ≤ s.t.length - s.i) = true := by simp [hr]
    have ha : s.t[s.i]? = some (s.t.get ⟨s.i, by omega⟩) := by simp
    have hb : s.t[s.i + 1]? = some (s.t.get ⟨s.i + 1, by omega⟩) := by simp
    have hc : s.t[s.i + 2]? = some (s.t.get ⟨s.i + 2, by omega⟩) := by simp
    simp [hd, ha, hb, hc]
  · have hd : decide (3 ≤ s.t.length - s.i) = false := by simp [hr]
    have h0q : s.t[0]? = some (s.t.get ⟨0, by omega⟩) := by simp
    have hcnone : s.t[s.i + 2]? = none := List.getElem?_eq_none (by omega)
    rcases ha : s.t[s.i]? with _ | a <;> rcases hb : s.t[s.i + 1]? with _ | b <;>
      simp [hd, h0q, hcnone, ha, hb]

theorem sigFnArity0_char (s : PState) (h0 : s.t ≠ []) (h2 : s.i ≤ s.t.length) :
    cursorSignatureMatchFnArity0Rounded s = some (fnArity0Pat s.t s.i) := by
  have hlen : 0 < s.t.length := List.length_pos.mpr h0
  unfold cursorSignatureMatchFnArity0Rounded fnArity0Pat
  rw [hasRemaining_eq 3 h2]
  by_cases hr : 3 ≤ s.t.length - s.i
  · have hd : decide (3 ≤ s.t.length - s.i) = true := by simp [hr]
    have ha : s.t[s.i]? = some (s.t.get ⟨s.i, by omega⟩) := by simp
    have hb : s.t[s.i + 1]? = some (s.t.get ⟨s.i + 1, by omega⟩) := by simp
    have hc : s.t[s.i + 2]? = some (s.t.get ⟨s.i + 2, by omega⟩) := by simp
    simp [hd, ha, hb, hc]
  · have hd : decide (3 ≤ s.t.length - s.i) = false := by simp [hr]
    have h0q : s.t[0]? = some (s.t.get ⟨0, by omega⟩) := by simp
    have hcnone : s.t[s.i + 2]? = none := List.getElem?_eq_none (by omega)
    rcases ha : s.t[s.i]? with _ | a <;> rcases hb : s.t[s.i + 1]? with _ | b <;>
      simp [hd, h0q, hcnone, ha, hb]

/-!
## Step lemmas for the entity resolver
-/

theorem getElem?_some_lt {t : List Token} {n : Nat} {x : Token}
    (h : t[n]? = some x) : n < t.length := by
  by_contra hc
  rw [List.getElem?_eq_none (by omega)] at h
  cases h

theorem ne_nil_of_getElem?_some {t : List Token} {n : Nat} {x : Token}
    (h : t[n]? = some x) : t ≠ [] := by
  intro he
  subst he
  simp at h

theorem currentTok_eq {s : PState} (h2 : s.i ≤ s.t.length) :
    currentTok s = some (s.t.drop s.i) := by
  unfold currentTok
  rw [if_pos h2]

theorem attemptProcessEntity_full (s : PState) (a c : String)
    (ha : s.t[s.i]? = some (.ident a))
    (hb : s.t[s.i + 1]? = some (.sym .symDot))
    (hc : s.t[s.i + 2]? = some (.ident c)) :
    attemptProcessEntity s = some ({ s with i := s.i + 3 }, some (.Full a c)) := by
  have hlt : s.i + 2 < s.t.length := getElem?_some_lt hc
  have h0 : s.t ≠ [] := ne_nil_of_getElem?_some ha
  have h2 : s.i ≤ s.t.length := by omega
  have hfull : entityFullPat s.t s.i = true := by
    unfold entityFullPat
    rw [ha, hb, hc]
    rfl
  have hsig := sigEntityFull_char s h0 h2
  rw [hfull] at hsig
  have hid : singlePat s.t s.i = true := by
    unfold singlePat
    rw [ha]
    rfl
  have hchir := cursorHasIdentRounded_char s h0 h2
  rw [hid] at hchir
  have hfe : fullEntityFromSlice (s.t.drop s.i) = some (.Full a c) := by
    unfold fullEntityFromSlice
    rw [List.getElem?_drop, List.getElem?_drop, Nat.add_zero]
    rw [ha, hc]
    rfl
  unfold attemptProcessEntity
  rw [currentTok_eq h2, hsig, hchir]
  simp [hfe, poisonIfNot, poisonIf, cursorAheadBy]

theorem attemptProcessEntity_single (s : PState) (a : String)
    (ha : s.t[s.i]? = some (.ident a))
    (hfull : entityFullPat s.t s.i = false) :
    attemptProcessEntity s = some ({ s with i := s.i + 1 }, some (.Single a)) := by
  have hlt : s.i < s.t.length := getElem?_some_lt ha
  have h0 : s.t ≠ [] := ne_nil_of_getElem?_some ha
  have h2 : s.i ≤ s.t.length := by omega
  have hsig := sigEntityFull_char s h0 h2
  rw [hfull] at hsig
  have hid : singlePat s.t s.i = true := by
    unfold singlePat
    rw [ha]
    rfl
  have hchir := cursorHasIdentRounded_char s h0 h2
  rw [hid] at hchir
  have hse : singleEntityFromSlice (s.t.drop s.i) = some (.Single a) := by
    unfold singleEntityFromSlice
    rw [List.getElem?_drop, Nat.add_zero, ha]
    rfl
  unfold attemptProcessEntity
  rw [currentTok_eq h2, hsig, hchir]
  simp [hse, poisonIfNot, poisonIf, cursorAhead, cursorAheadBy]

theorem attemptProcessEntity_poisoned (s : PState) (h0 : s.t ≠ [])
    (h2 : s.i ≤ s.t.length) (hfull : entityFullPat s.t s.i = false)
    (hsingle : singlePat s.t s.i = false) :
    attemptProcessEntity s = some ({ s with f := false }, none) := by
  have hsig := sigEntityFull_char s h0 h2
  rw [hfull] at hsig
  have hchir := cursorHasIdentRounded_char s h0 h2
  rw [hsingle] at hchir
  unfold attemptProcessEntity
  rw [currentTok_eq h2, hsig, hchir]
  simp [poisonIfNot, poisonIf]

theorem attemptProcessEntityResult_full (s : PState) (a c : String)
    (hf : s.f = true)
    (ha : s.t[s.i]? = some (.ident a))
    (hb : s.t[s.i + 1]? = some (.sym .symDot))
    (hc : s.t[s.i + 2]? = some (.ident c)) :
    attemptProcessEntityResult s =
      some ({ s with i := s.i + 3 }, .ok (.Full a c)) := by
  unfold attemptProcessEntityResult
  rw [attemptProcessEntity_full s a c ha hb hc]
  simp [okay, hf]

theorem attemptProcessEntityResult_single (s : PState) (a : String)
    (hf : s.f = true)
    (ha : s.t[s.i]? = some (.ident a))
    (hfull : entityFullPat s.t s.i = false) :
    attemptProcessEntityResult s =
      some ({ s with i := s.i + 1 }, .ok (.Single a)) := by
  unfold attemptProcessEntityResult
  rw [attemptProcessEntity_single s a ha hfull]
  simp [okay, hf]

theorem attemptProcessEntityResult_err (s : PState) (h0 : s.t ≠ [])
    (h2 : s.i ≤ s.t.length) (hfull : entityFullPat s.t s.i = false)
    (hsingle : singlePat s.t s.i = false) :
    attemptProcessEntityResult s =
      some ({ s with f := false }, .error .ExpectedEntity) := by
  unfold attemptProcessEntityResult
  rw [attemptProcessEntity_poisoned s h0 h2 hfull hsingle]
  simp [okay]

/-!
## Claim theorems
-/

/-- C3 counterexample: all four rounded helpers panic (model: `none`) on the
empty token slice at cursor 0, instead of returning a boolean — `minidx`
computes `len - 1` on `len = 0` and the subsequent slice index is out of
bounds, so the claim's totality "for every token slice (including the empty
slice)" fails. -/
theorem c3_empty_slice_counterexample :
    cursorRoundedEq ⟨[], 0, true⟩ (.kw .kwUse) = none ∧
    cursorHasIdentRounded ⟨[], 0, true⟩ = none ∧
    cursorSignatureMatchFnArity0Rounded ⟨[], 0, true⟩ = none ∧
    cursorSignatureMatchEntityFullRounded ⟨[], 0, true⟩ = none := by
  refine ⟨rfl, rfl, ?_, ?_⟩ <;> decide

/-- C3 (amended): on every nonempty token slice with cursor ≤ length, the
four rounded parser-state helpers return a boolean without panicking — each
computes its direct specification predicate — and the out-of-range cursor
position (cursor = length) yields no match (`false`) for all four. -/
theorem c3_rounded_helpers_total (s : PState) (tok : Token)
    (h0 : s.t ≠ []) (h2 : s.i ≤ s.t.length) :
    cursorRoundedEq s tok = some (cursorEqPat s.t s.i tok) ∧
    cursorHasIdentRounded s = some (singlePat s.t s.i) ∧
    cursorSignatureMatchFnArity0Rounded s = some (fnArity0Pat s.t s.i) ∧
    cursorSignatureMatchEntityFullRounded s = some (entityFullPat s.t s.i) ∧
    (s.i = s.t.length →
      cursorRoundedEq s tok = some false ∧
      cursorHasIdentRounded s = some false ∧
      cursorSignatureMatchFnArity0Rounded s = some false ∧
      cursorSignatureMatchEntityFullRounded s = some false) := by
  have hnone : s.i = s.t.length → s.t[s.i]? = none := fun h =>
    List.getElem?_eq_none (by omega)
  refine ⟨cursorRoundedEq_char s tok h0, cursorHasIdentRounded_char s h0 h2,
    sigFnArity0_char s h0 h2, sigEntityFull_char s h0 h2, fun he => ?_⟩
  have h1 : cursorEqPat s.t s.i tok = false := by
    unfold cursorEqPat
    rw [hnone he]
  have h2p : singlePat s.t s.i = false := by
    unfold singlePat
    rw [hnone he]
  have h3p : fnArity0Pat s.t s.i = false := by
    unfold fnArity0Pat
    rw [hnone he]
  have h4p : entityFullPat s.t s.i = false := by
    unfold entityFullPat
    rw [hnone he]
  refine ⟨?_, ?_, ?_, ?_⟩
  · rw [cursorRoundedEq_char s tok h0, h1]
  · rw [cursorHasIdentRounded_char s h0 h2, h2p]
  · rw [sigFnArity0_char s h0 h2, h3p]
  · rw [sigEntityFull_char s h0 h2, h4p]

/-- C3 witness: the amended theorem applied at the one-token slice with the
cursor at the end. -/
theorem c3_rounded_helpers_total_witness :
    cursorRoundedEq ⟨[.ident "x"], 1, true⟩ (.ident "x") = some false ∧
    cursorHasIdentRounded ⟨[.ident "x"], 1, true⟩ = some false ∧
    cursorSignatureMatchFnArity0Rounded ⟨[.ident "x"], 1, true⟩ = some false ∧
    cursorSignatureMatchEntityFullRounded ⟨[.ident "x"], 1, true⟩ = some false := by
  have h := c3_rounded_helpers_total ⟨[.ident "x"], 1, true⟩ (.ident "x")
    (by decide) (by decide)
  exact h.2.2.2.2 rfl

/-- C4 counterexample: compiling `inspect spaces extra` yields
`ExpectedStatement` (the inspect sub-parser's fall-through arm), not
`UnexpectedToken` as the claim states. -/
theorem c4_inspect_spaces_extra_counterexample :
    compile [.ident "inspect", .ident "spaces", .ident "extra"] ≠
      some (.result (.error .UnexpectedToken)) ∧
    compile [.ident "inspect", .ident "spaces", .ident "extra"] =
      some (.result (.error .ExpectedStatement)) := by
  refine ⟨?_, ?_⟩ <;> decide

/-- C4 (amended): compiling the token stream `inspect spaces` followed by
one extra trailing token returns the error `ExpectedStatement`: the
`spaces` arm of `parse_inspect` requires exhaustion, so its guard fails and
the fall-through arm backs the cursor and reports `ExpectedStatement`. -/
theorem c4_inspect_spaces_extra (extra : Token) :
    compile [.ident "inspect", .ident "spaces", extra] =
      some (.result (.error .ExpectedStatement)) := rfl

/-- C5: `compile` returns `UnexpectedEOS` for every token stream with fewer
than 2 tokens (the entry guard of ast/mod.rs:536-538). -/
theorem c5_short_stream_eos (tok : List Token) (h : tok.length < 2) :
    compile tok = some (.result (.error .UnexpectedEOS)) := by
  unfold compile
  rw [if_pos h]

/-- C5 witness: the theorem applied to the empty stream and to the
single-token stream `use`. -/
theorem c5_short_stream_eos_witness :
    compile [] = some (.result (.error .UnexpectedEOS)) ∧
    compile [.kw .kwUse] = some (.result (.error .UnexpectedEOS)) :=
  ⟨c5_short_stream_eos [] (by decide), c5_short_stream_eos [.kw .kwUse] (by decide)⟩

/-- C6 counterexample: on the state with the empty token slice (cursor 0,
unpoisoned), `attempt_process_entity` panics (model: `none`) instead of
poisoning the state as the claim's "otherwise" case requires. -/
theorem c6_empty_state_counterexample :
    attemptProcessEntity ⟨[], 0, true⟩ = none ∧
    attemptProcessEntity ⟨[], 0, true⟩ ≠ some (⟨[], 0, false⟩, none) := by
  refine ⟨?_, ?_⟩ <;> decide

/-- C6 (amended): for every state whose token slice is nonempty and whose
cursor is ≤ the slice length, `attempt_process_entity` stores
`Full(first, third)` and advances by 3 when the next three tokens are
`ident '.' ident`, else stores `Single(first)` and advances by 1 when the
next token is an identifier, else poisons the state leaving the output
uninitialized; and `attempt_process_entity_result` turns the poisoned case
into `ExpectedEntity`. -/
theorem c6_entity_processing (s : PState) (h0 : s.t ≠ [])
    (h2 : s.i ≤ s.t.length) :
    (∀ a c, s.t[s.i]? = some (.ident a) →
      s.t[s.i + 1]? = some (.sym .symDot) →
      s.t[s.i + 2]? = some (.ident c) →
      attemptProcessEntity s = some ({ s with i := s.i + 3 }, some (.Full a c))) ∧
    (∀ a, entityFullPat s.t s.i = false → s.t[s.i]? = some (.ident a) →
      attemptProcessEntity s = some ({ s with i := s.i + 1 }, some (.Single a))) ∧
    (entityFullPat s.t s.i = false → singlePat s.t s.i = false →
      attemptProcessEntity s = some ({ s with f := false }, none)) ∧
    (entityFullPat s.t s.i = false → singlePat s.t s.i = false →
      attemptProcessEntityResult s =
        some ({ s with f := false }, .error .ExpectedEntity)) := by
  exact ⟨fun a c ha hb hc => attemptProcessEntity_full s a c ha hb hc,
    fun a ha hfull => attemptProcessEntity_single s a hfull ha,
    fun hfull hsingle => attemptProcessEntity_poisoned s h0 h2 hfull hsingle,
    fun hfull hsingle => attemptProcessEntityResult_err s h0 h2 hfull hsingle⟩

/-- C6 witness: the amended theorem applied to concrete states covering the
full-entity, single-entity and poisoned cases. -/
theorem c6_entity_processing_witness :
    attemptProcessEntity ⟨[.ident "a", .sym .symDot, .ident "b"], 0, true⟩ =
      some (⟨[.ident "a", .sym .symDot, .ident "b"], 3, true⟩,
        some (.Full "a" "b")) ∧
    attemptProcessEntity ⟨[.ident "a", .kw .kwUse], 0, true⟩ =
      some (⟨[.ident "a", .kw .kwUse], 1, true⟩, some (.Single "a")) ∧
    attemptProcessEntityResult ⟨[.kw .kwUse], 0, true⟩ =
      some (⟨[.kw .kwUse], 0, false⟩, .error .ExpectedEntity) := by
  refine ⟨?_, ?_, ?_⟩
  · have h := (c6_entity_processing ⟨[.ident "a", .sym .symDot, .ident "b"], 0, true⟩
      (by decide) (by decide)).1 "a" "b" rfl rfl rfl
    exact h
  · have h := (c6_entity_processing ⟨[.ident "a", .kw .kwUse], 0, true⟩
      (by decide) (by decide)).2.1 "a" (by decide) rfl
    exact h
  · have h := (c6_entity_processing ⟨[.kw .kwUse], 0, true⟩
      (by decide) (by decide)).2.2.2 (by decide) (by decide)
    exact h

/-- C7: in `drop model <entity> [force]` and `drop space <ident> [force]`
the trailing `force` identifier is matched case-insensitively: any
identifier `fs` with `identEq fs "force"` is consumed and sets the force
flag, for single entities, full entities and spaces alike; and a token
after `force` makes the stream non-exhausted, yielding `UnexpectedToken`. -/
theorem c7_drop_force_case_insensitive (x sp fs : String) (extra : Token)
    (hf : identEq fs "force" = true) :
    compile [.kw .kwDrop, .kw .kwModel, .ident x, .ident fs] =
      some (.result (.ok (.DropModelStmt ⟨.Single x, true⟩))) ∧
    compile [.kw .kwDrop, .kw .kwModel, .ident x, .sym .symDot, .ident sp,
        .ident fs] =
      some (.result (.ok (.DropModelStmt ⟨.Full x sp, true⟩))) ∧
    compile [.kw .kwDrop, .kw .kwSpace, .ident sp, .ident fs] =
      some (.result (.ok (.DropSpaceStmt ⟨sp, true⟩))) ∧
    compile [.kw .kwDrop, .kw .kwModel, .ident x, .ident fs, extra] =
      some (.result (.error .UnexpectedToken)) := by
  have hb : tokenEq (Token.ident fs) (Token.ident "force") = true := by
    rw [show tokenEq (Token.ident fs) (Token.ident "force") =
      identEq fs "force" from rfl]
    exact hf
  refine ⟨?_, ?_, ?_, ?_⟩
  · have hent : attemptProcessEntityResult
        ⟨[.kw .kwDrop, .kw .kwModel, .ident x, .ident fs], 2, true⟩ =
        some (⟨[.kw .kwDrop, .kw .kwModel, .ident x, .ident fs], 3, true⟩,
          .ok (.Single x)) :=
      attemptProcessEntityResult_single _ x rfl rfl rfl
    have hforce : cursorRoundedEq
        ⟨[.kw .kwDrop, .kw .kwModel, .ident x, .ident fs], 3, true⟩
        (.ident "force") = some true := by
      show some (tokenEq (Token.ident fs) (Token.ident "force") &&
        ((3 : Nat) == 3)) = some true
      rw [hb]
      rfl
    have e3 : dropModelParse
        ⟨[.kw .kwDrop, .kw .kwModel, .ident x, .ident fs], 2, true⟩ =
        some (⟨[.kw .kwDrop, .kw .kwModel, .ident x, .ident fs], 4, true⟩,
          .ok ⟨.Single x, true⟩) := by
      unfold dropModelParse
      simp only [hent, hforce]
      rfl
    rw [show compile [.kw .kwDrop, .kw .kwModel, .ident x, .ident fs] =
      ((dropModelParse ⟨[.kw .kwDrop, .kw .kwModel, .ident x, .ident fs],
          2, true⟩).map
        (fun p => (p.1, p.2.map Statement.DropModelStmt))).map
        (fun p => CompileResult.result p.2) from rfl, e3]
    rfl
  · have hent : attemptProcessEntityResult
        ⟨[.kw .kwDrop, .kw .kwModel, .ident x, .sym .symDot, .ident sp,
          .ident fs], 2, true⟩ =
        some (⟨[.kw .kwDrop, .kw .kwModel, .ident x, .sym .symDot, .ident sp,
          .ident fs], 5, true⟩, .ok (.Full x sp)) :=
      attemptProcessEntityResult_full _ x sp rfl rfl rfl rfl
    have hforce : cursorRoundedEq
        ⟨[.kw .kwDrop, .kw .kwModel, .ident x, .sym .symDot, .ident sp,
          .ident fs], 5, true⟩ (.ident "force") = some true := by
      show some (tokenEq (Token.ident fs) (Token.ident "force") &&
        ((5 : Nat) == 5)) = some true
      rw [hb]
      rfl
    have e3 : dropModelParse
        ⟨[.kw .kwDrop, .kw .kwModel, .ident x, .sym .symDot, .ident sp,
          .ident fs], 2, true⟩ =
        some (⟨[.kw .kwDrop, .kw .kwModel, .ident x, .sym .symDot, .ident sp,
          .ident fs], 6, true⟩, .ok ⟨.Full x sp, true⟩) := by
      unfold dropModelParse
      simp only [hent, hforce]
      rfl
    rw [show compile [.kw .kwDrop, .kw .kwModel, .ident x, .sym .symDot,
        .ident sp, .ident fs] =
      ((dropModelParse ⟨[.kw .kwDrop, .kw .kwModel, .ident x, .sym .symDot,
          .ident sp, .ident fs], 2, true⟩).map
        (fun p => (p.1, p.2.map Statement.DropModelStmt))).map
        (fun p => CompileResult.result p.2) from rfl, e3]
    rfl
  · have hforce : cursorRoundedEq
        ⟨[.kw .kwDrop, .kw .kwSpace, .ident sp, .ident fs], 3, true⟩
        (.ident "force") = some true := by
      show some (tokenEq (Token.ident fs) (Token.ident "force") &&
        ((3 : Nat) == 3)) = some true
      rw [hb]
      rfl
    have hci : cursorIsIdent
        ⟨[.kw .kwDrop, .kw .kwSpace, .ident sp, .ident fs], 2, true⟩ =
        some true := rfl
    have hfw : fwRead
        ⟨[.kw .kwDrop, .kw .kwSpace, .ident sp, .ident fs], 2, true⟩ =
        some (.ident sp,
          ⟨[.kw .kwDrop, .kw .kwSpace, .ident sp, .ident fs], 3, true⟩) := rfl
    have hex : exhausted (cursorAheadIf
        ⟨[.kw .kwDrop, .kw .kwSpace, .ident sp, .ident fs], 3, true⟩ true) =
        some true := rfl
    have e3 : dropSpaceParse
        ⟨[.kw .kwDrop, .kw .kwSpace, .ident sp, .ident fs], 2, true⟩ =
        some (⟨[.kw .kwDrop, .kw .kwSpace, .ident sp, .ident fs], 4, true⟩,
          .ok ⟨sp, true⟩) := by
      unfold dropSpaceParse
      simp only [hci, hfw, hforce, hex]
      rfl
    rw [show compile [.kw .kwDrop, .kw .kwSpace, .ident sp, .ident fs] =
      ((dropSpaceParse ⟨[.kw .kwDrop, .kw .kwSpace, .ident sp, .ident fs],
          2, true⟩).map
        (fun p => (p.1, p.2.map Statement.DropSpaceStmt))).map
        (fun p => CompileResult.result p.2) from rfl, e3]
    rfl
  · have hent : attemptProcessEntityResult
        ⟨[.kw .kwDrop, .kw .kwModel, .ident x, .ident fs, extra], 2, true⟩ =
        some (⟨[.kw .kwDrop, .kw .kwModel, .ident x, .ident fs, extra],
          3, true⟩, .ok (.Single x)) :=
      attemptProcessEntityResult_single _ x rfl rfl rfl
    have hforce : cursorRoundedEq
        ⟨[.kw .kwDrop, .kw .kwModel, .ident x, .ident fs, extra], 3, true⟩
        (.ident "force") = some true := by
      show some (tokenEq (Token.ident fs) (Token.ident "force") &&
        ((3 : Nat) == 3)) = some true
      rw [hb]
      rfl
    have e3 : dropModelParse
        ⟨[.kw .kwDrop, .kw .kwModel, .ident x, .ident fs, extra], 2, true⟩ =
        some (⟨[.kw .kwDrop, .kw .kwModel, .ident x, .ident fs, extra],
          4, true⟩, .error .UnexpectedToken) := by
      unfold dropModelParse
      simp only [hent, hforce]
      rfl
    rw [show compile [.kw .kwDrop, .kw .kwModel, .ident x, .ident fs, extra] =
      ((dropModelParse ⟨[.kw .kwDrop, .kw .kwModel, .ident x, .ident fs,
          extra], 2, true⟩).map
        (fun p => (p.1, p.2.map Statement.DropModelStmt))).map
        (fun p => CompileResult.result p.2) from rfl, e3]
    rfl

/-- C7 witness: the theorem applied with the capitalizations `FORCE` and
concrete names. -/
theorem c7_drop_force_case_insensitive_witness :
    compile [.kw .kwDrop, .kw .kwModel, .ident "m", .ident "FORCE"] =
      some (.result (.ok (.DropModelStmt ⟨.Single "m", true⟩))) ∧
    compile [.kw .kwDrop, .kw .kwModel, .ident "m", .sym .symDot, .ident "s",
        .ident "FORCE"] =
      some (.result (.ok (.DropModelStmt ⟨.Full "m" "s", true⟩))) ∧
    compile [.kw .kwDrop, .kw .kwSpace, .ident "s", .ident "FORCE"] =
      some (.result (.ok (.DropSpaceStmt ⟨"s", true⟩))) ∧
    compile [.kw .kwDrop, .kw .kwModel, .ident "m", .ident "FORCE",
        .ident "zzz"] =
      some (.result (.error .UnexpectedToken)) :=
  c7_drop_force_case_insensitive "m" "s" "FORCE" (.ident "zzz") (by decide)

/-- C10: `compile` does not require exhaustion after a `use` statement's
entity: with one or more arbitrary trailing tokens after a full entity it
returns `Ok(Use(Full ..))`, and after a single entity it returns
`Ok(Use(Single ..))` whenever the trailing tokens do not begin with
`'.' ident` (in which case the stream is the full-entity case, covered by
the first conjunct); either way the trailing tokens are silently ignored. -/
theorem c10_use_ignores_trailing (a b : String) (rest : List Token)
    (h1 : rest ≠ []) :
    compile (.kw .kwUse :: .ident a :: .sym .symDot :: .ident b :: rest) =
      some (.result (.ok (.Use (.Full a b)))) ∧
    (fullExtension rest = false →
      compile (.kw .kwUse :: .ident a :: rest) =
        some (.result (.ok (.Use (.Single a))))) := by
  constructor
  · unfold compile
    rw [if_neg (by simp only [List.length_cons]; omega)]
    show (attemptProcessEntityResult
        ⟨.kw .kwUse :: .ident a :: .sym .symDot :: .ident b :: rest,
          1, true⟩).map
      (fun p => CompileResult.result (p.2.map Statement.Use)) =
      some (.result (.ok (.Use (.Full a b))))
    rw [attemptProcessEntityResult_full
      ⟨.kw .kwUse :: .ident a :: .sym .symDot :: .ident b :: rest, 1, true⟩
      a b rfl (by simp) (by simp) (by simp)]
    rfl
  · intro h2
    have hfull : entityFullPat (Token.kw .kwUse :: Token.ident a :: rest) 1 =
        false := by
        rcases rest with _ | ⟨r0, rtail⟩
        · cases h1 rfl
        · rcases rtail with _ | ⟨r1, rtail2⟩
          · rfl
          · have e1 : (Token.kw Keyword.kwUse :: Token.ident a :: r0 :: r1 ::
                rtail2)[(1 : Nat)]? = some (Token.ident a) := by simp
            have e2 : (Token.kw Keyword.kwUse :: Token.ident a :: r0 :: r1 ::
                rtail2)[1 + 1]? = some r0 := by simp
            have e3 : (Token.kw Keyword.kwUse :: Token.ident a :: r0 :: r1 ::
                rtail2)[1 + 2]? = some r1 := by simp
            unfold entityFullPat
            rw [e1, e2, e3]
            show ((Token.ident a).isIdent && tokenEq r0 (.sym .symDot) &&
              r1.isIdent) = false
            cases r0 with
            | sym sy =>
              cases sy with
              | symDot =>
                have hr1 : r1.isIdent = false := h2
                exact hr1
              | symComma => rfl
              | symParenOpen => rfl
              | symParenClose => rfl
              | symSemicolon => rfl
              | symEq => rfl
            | ident s => rfl
            | kw k => rfl
            | lit l => rfl
            | placeholder => rfl
            | ignorableComma => rfl
    unfold compile
    rw [if_neg (by simp only [List.length_cons]; omega)]
    show (attemptProcessEntityResult
        ⟨.kw .kwUse :: .ident a :: rest, 1, true⟩).map
      (fun p => CompileResult.result (p.2.map Statement.Use)) =
      some (.result (.ok (.Use (.Single a))))
    rw [attemptProcessEntityResult_single
      ⟨.kw .kwUse :: .ident a :: rest, 1, true⟩ a rfl (by simp) hfull]
    rfl

/-- C10 witness: the theorem applied with trailing junk after a full and a
single entity, including trailing tokens that themselves start with
`'.' ident` after a full entity. -/
theorem c10_use_ignores_trailing_witness :
    compile [.kw .kwUse, .ident "s", .sym .symDot, .ident "m", .ident "junk"] =
      some (.result (.ok (.Use (.Full "s" "m")))) ∧
    compile [.kw .kwUse, .ident "s", .sym .symDot, .ident "m", .sym .symDot,
        .ident "x"] =
      some (.result (.ok (.Use (.Full "s" "m")))) ∧
    compile [.kw .kwUse, .ident "s", .ident "junk"] =
      some (.result (.ok (.Use (.Single "s")))) :=
  ⟨(c10_use_ignores_trailing "s" "m" [.ident "junk"] (by decide)).1,
    (c10_use_ignores_trailing "s" "m" [.sym .symDot, .ident "x"]
      (by decide)).1,
    (c10_use_ignores_trailing "s" "m" [.ident "junk"] (by decide)).2
      (by decide)⟩

/-!
## Cursor-bound preservation lemmas
-/

theorem currentTok_le {s : PState} {tok : List Token}
    (h : currentTok s = some tok) : s.i ≤ s.t.length := by
  unfold currentTok at h
  split at h
  · assumption
  · cases h

theorem remaining_le {s : PState} {r : Nat}
    (h : remaining s = some r) : s.i ≤ s.t.length := by
  unfold remaining at h
  split at h
  · assumption
  · cases h

theorem fwRead_dest {s : PState} {tk : Token} {s2 : PState}
    (h : fwRead s = some (tk, s2)) :
    s2 = cursorAhead s ∧ s.i < s.t.length := by
  unfold fwRead readTok at h
  rcases hx : s.t[s.i]? with _ | x <;> simp only [hx] at h
  · cases h
  simp only [Option.some.injEq, Prod.mk.injEq] at h
  exact ⟨h.2.symm, getElem?_some_lt hx⟩

theorem cursorIsIdent_lt {s : PState} {ci : Bool}
    (h : cursorIsIdent s = some ci) : s.i < s.t.length := by
  unfold cursorIsIdent readTok at h
  rcases hx : s.t[s.i]? with _ | x
  · rw [hx] at h
    cases h
  · exact getElem?_some_lt hx

theorem cursorRoundedEq_true_lt {s : PState} {tok : Token}
    (h : cursorRoundedEq s tok = some true) : s.i < s.t.length := by
  unfold cursorRoundedEq at h
  rcases hmx : minidx s.t s.i with _ | mx <;> simp only [hmx] at h
  · cases h
  rcases hx : s.t[mx]? with _ | x <;> simp only [hx] at h
  · cases h
  simp only [Option.some.injEq, Bool.and_eq_true, beq_iff_eq] at h
  obtain ⟨-, h2⟩ := h
  unfold minidx at hmx
  split at hmx
  · cases hmx
  · simp only [Option.some.injEq] at hmx
    have hle : min (s.t.length - 1) s.i ≤ s.t.length - 1 := Nat.min_le_left _ _
    omega

theorem attemptProcessEntity_bound {s s2 : PState} {o : Option Entity}
    (h : attemptProcessEntity s = some (s2, o)) :
    s2.t = s.t ∧ s2.i ≤ s2.t.length := by
  unfold attemptProcessEntity at h
  rcases hcur : currentTok s with _ | tok <;> simp only [hcur] at h
  · cases h
  have h2 : s.i ≤ s.t.length := currentTok_le hcur
  rcases hsig : cursorSignatureMatchEntityFullRounded s with _ | bfull <;>
    simp only [hsig] at h
  · cases h
  rcases hchir : cursorHasIdentRounded s with _ | bsing <;>
    simp only [hchir] at h
  · cases h
  have h0 : s.t ≠ [] := by
    intro he
    have hi0 : s.i = 0 := by
      have h3 := h2
      rw [he] at h3
      simpa using h3
    have hnone : cursorSignatureMatchEntityFullRounded s = none := by
      unfold cursorSignatureMatchEntityFullRounded hasRemaining remaining
      rw [he, hi0]
      rfl
    rw [hnone] at hsig
    cases hsig
  cases bfull with
  | true =>
    have hsig2 := sigEntityFull_char s h0 h2
    rw [hsig] at hsig2
    have hpat : entityFullPat s.t s.i = true := by
      simpa using hsig2.symm
    have hlt : s.i + 2 < s.t.length := by
      rcases hc : s.t[s.i + 2]? with _ | c
      · unfold entityFullPat at hpat
        rcases ha : s.t[s.i]? with _ | a <;>
          rcases hb : s.t[s.i + 1]? with _ | b <;>
          simp only [ha, hb, hc] at hpat <;> cases hpat
      · exact getElem?_some_lt hc
    rw [if_pos rfl] at h
    rcases hfe : fullEntityFromSlice tok with _ | e <;>
      simp only [hfe, Option.map_some', Option.map_none'] at h
    · cases h
    simp only [Option.some.injEq, Prod.mk.injEq] at h
    obtain ⟨h4, -⟩ := h
    rw [← h4]
    refine ⟨rfl, ?_⟩
    show s.i + 3 ≤ s.t.length
    omega
  | false =>
    rw [if_neg (by simp)] at h
    cases bsing with
    | true =>
      have hchir2 := cursorHasIdentRounded_char s h0 h2
      rw [hchir] at hchir2
      have hpat : singlePat s.t s.i = true := by
        simpa using hchir2.symm
      have hlt : s.i < s.t.length := by
        rcases ha : s.t[s.i]? with _ | a
        · unfold singlePat at hpat
          simp only [ha] at hpat
          cases hpat
        · exact getElem?_some_lt ha
      rw [if_pos rfl] at h
      rcases hse : singleEntityFromSlice tok with _ | e <;>
        simp only [hse, Option.map_some', Option.map_none'] at h
      · cases h
      simp only [Option.some.injEq, Prod.mk.injEq] at h
      obtain ⟨h4, -⟩ := h
      rw [← h4]
      refine ⟨rfl, ?_⟩
      show s.i + 1 ≤ s.t.length
      omega
    | false =>
      rw [if_neg (by simp)] at h
      simp only [Option.map_some', Option.some.injEq, Prod.mk.injEq] at h
      obtain ⟨h4, -⟩ := h
      rw [← h4]
      exact ⟨rfl, h2⟩

theorem attemptProcessEntityResult_bound {s s2 : PState}
    {r : Except LangError Entity}
    (h : attemptProcessEntityResult s = some (s2, r)) :
    s2.t = s.t ∧ s2.i ≤ s2.t.length := by
  unfold attemptProcessEntityResult at h
  rcases hap : attemptProcessEntity s with _ | p <;> simp only [hap] at h
  · cases h
  obtain ⟨sa, d⟩ := p
  have hb := attemptProcessEntity_bound hap
  rcases d with _ | e
  · split at h
    · cases h
    · simp only [Option.some.injEq, Prod.mk.injEq] at h
      obtain ⟨h4, -⟩ := h
      rw [← h4]
      exact hb
  · split at h <;>
      · simp only [Option.some.injEq, Prod.mk.injEq] at h
        obtain ⟨h4, -⟩ := h
        rw [← h4]
        exact hb

theorem dropModelParse_bound {s s2 : PState} {r : Except LangError DropModel}
    (h : dropModelParse s = some (s2, r)) :
    s2.t = s.t ∧ s2.i ≤ s2.t.length := by
  unfold dropModelParse at h
  rcases hent : attemptProcessEntityResult s with _ | p <;>
    simp only [hent] at h
  · cases h
  obtain ⟨s1, r1⟩ := p
  have hb := attemptProcessEntityResult_bound hent
  rcases r1 with e | ent
  · simp only [Option.some.injEq, Prod.mk.injEq] at h
    obtain ⟨h4, -⟩ := h
    rw [← h4]
    exact hb
  · rcases hforce : cursorRoundedEq s1 (.ident "force") with _ | force <;>
      simp only [hforce] at h
    · cases h
    have hb2 : (cursorAheadIf s1 force).t = s.t ∧
        (cursorAheadIf s1 force).i ≤ (cursorAheadIf s1 force).t.length := by
      cases force with
      | true =>
        have h3 := cursorRoundedEq_true_lt hforce
        refine ⟨hb.1, ?_⟩
        show s1.i + 1 ≤ s1.t.length
        omega
      | false =>
        refine ⟨hb.1, ?_⟩
        show s1.i + 0 ≤ s1.t.length
        have h5 := hb.2
        omega
    rcases hex : exhausted (cursorAheadIf s1 force) with _ | ex <;>
      simp only [hex] at h
    · cases h
    split at h <;>
      · simp only [Option.some.injEq, Prod.mk.injEq] at h
        obtain ⟨h4, -⟩ := h
        rw [← h4]
        exact hb2

theorem dropSpaceParse_bound {s s2 : PState} {r : Except LangError DropSpace}
    (h : dropSpaceParse s = some (s2, r)) :
    s2.t = s.t ∧ s2.i ≤ s2.t.length := by
  unfold dropSpaceParse at h
  rcases hci : cursorIsIdent s with _ | ci <;> simp only [hci] at h
  · cases h
  have hlt : s.i < s.t.length := cursorIsIdent_lt hci
  split at h
  · rcases hfw : fwRead s with _ | p <;> simp only [hfw] at h
    · cases h
    obtain ⟨idTok, s1⟩ := p
    obtain ⟨rfl, -⟩ := fwRead_dest hfw
    rcases hforce : cursorRoundedEq (cursorAhead s) (.ident "force")
      with _ | force <;> simp only [hforce] at h
    · cases h
    have hb2 : (cursorAheadIf (cursorAhead s) force).t = s.t ∧
        (cursorAheadIf (cursorAhead s) force).i ≤
          (cursorAheadIf (cursorAhead s) force).t.length := by
      cases force with
      | true =>
        have h3 := cursorRoundedEq_true_lt hforce
        have h3b : s.i + 1 < s.t.length := h3
        refine ⟨rfl, ?_⟩
        show s.i + 1 + 1 ≤ s.t.length
        omega
      | false =>
        refine ⟨rfl, ?_⟩
        show s.i + 1 + 0 ≤ s.t.length
        omega
    rcases hex : exhausted (cursorAheadIf (cursorAhead s) force) with _ | ex <;>
      simp only [hex] at h
    · cases h
    split at h
    · rcases hti : tokenIdentName idTok with _ | sp <;> simp only [hti] at h
      · cases h
      simp only [Option.some.injEq, Prod.mk.injEq] at h
      obtain ⟨h4, -⟩ := h
      rw [← h4]
      exact hb2
    · simp only [Option.some.injEq, Prod.mk.injEq] at h
      obtain ⟨h4, -⟩ := h
      rw [← h4]
      exact hb2
  · simp only [Option.some.injEq, Prod.mk.injEq] at h
    obtain ⟨h4, -⟩ := h
    rw [← h4]
    exact ⟨rfl, by omega⟩

theorem parseDrop_bound {s s2 : PState} {r : Except LangError Statement}
    (h : parseDrop s = some (s2, r)) :
    s2.t = s.t ∧ s2.i ≤ s2.t.length := by
  unfold parseDrop at h
  rcases hfw : fwRead s with _ | p <;> simp only [hfw] at h
  · cases h
  obtain ⟨tk, s1⟩ := p
  obtain ⟨rfl, hlt⟩ := fwRead_dest hfw
  have hfin : ∀ r2 : Except LangError Statement,
      some ((cursorAhead s), r2) = some (s2, r) →
      s2.t = s.t ∧ s2.i ≤ s2.t.length := by
    intro r2 hEq
    simp only [Option.some.injEq, Prod.mk.injEq] at hEq
    obtain ⟨h4, -⟩ := hEq
    rw [← h4]
    refine ⟨rfl, ?_⟩
    show s.i + 1 ≤ s.t.length
    omega
  rcases tk with s3 | k | s3 | l3
  case kw =>
    rcases k with _ | _ | _ | _ | _ | _ | _ | _ | _ | _
    case kwModel =>
      rcases hdm : dropModelParse (cursorAhead s) with _ | p2 <;>
        simp only [hdm, Option.map_some', Option.map_none'] at h
      · cases h
      obtain ⟨s3, r3⟩ := p2
      have hb := dropModelParse_bound hdm
      simp only [Option.some.injEq, Prod.mk.injEq] at h
      obtain ⟨h4, -⟩ := h
      rw [← h4]
      exact ⟨hb.1, hb.2⟩
    case kwSpace =>
      rcases hds : dropSpaceParse (cursorAhead s) with _ | p2 <;>
        simp only [hds, Option.map_some', Option.map_none'] at h
      · cases h
      obtain ⟨s3, r3⟩ := p2
      have hb := dropSpaceParse_bound hds
      simp only [Option.some.injEq, Prod.mk.injEq] at h
      obtain ⟨h4, -⟩ := h
      rw [← h4]
      exact ⟨hb.1, hb.2⟩
    all_goals exact hfin _ h
  all_goals exact hfin _ h

theorem inspectFallback_bound {s1 s2 : PState} {r : Except LangError Statement}
    (hble : s1.i ≤ s1.t.length)
    (h : inspectFallback s1 = some (s2, r)) :
    s2.t = s1.t ∧ s2.i ≤ s2.t.length := by
  unfold inspectFallback at h
  rcases hcb : cursorBack s1 with _ | s3 <;> simp only [hcb] at h
  · cases h
  simp only [Option.some.injEq, Prod.mk.injEq] at h
  obtain ⟨h4, -⟩ := h
  subst h4
  unfold cursorBack cursorBackBy at hcb
  split at hcb
  · simp only [Option.some.injEq] at hcb
    subst hcb
    refine ⟨rfl, ?_⟩
    show s1.i - 1 ≤ s1.t.length
    omega
  · cases hcb

theorem parseInspect_bound {s s2 : PState} {r : Except LangError Statement}
    (h : parseInspect s = some (s2, r)) :
    s2.t = s.t ∧ s2.i ≤ s2.t.length := by
  unfold parseInspect at h
  rcases hrem : remaining s with _ | rr <;> simp only [hrem] at h
  · cases h
  have h2 : s.i ≤ s.t.length := remaining_le hrem
  split at h
  · simp only [Option.some.injEq, Prod.mk.injEq] at h
    obtain ⟨h4, -⟩ := h
    rw [← h4]
    exact ⟨rfl, h2⟩
  rcases hfw : fwRead s with _ | p <;> simp only [hfw] at h
  · cases h
  obtain ⟨tk, s1⟩ := p
  obtain ⟨rfl, hlt⟩ := fwRead_dest hfw
  have hase : (cursorAhead s).i ≤ (cursorAhead s).t.length := by
    show s.i + 1 ≤ s.t.length
    omega
  have hfb : inspectFallback (cursorAhead s) = some (s2, r) →
      s2.t = s.t ∧ s2.i ≤ s2.t.length := by
    intro hh
    exact (inspectFallback_bound hase hh).imp (fun he => he) id
  have hfin : ∀ r2 : Except LangError Statement,
      some ((cursorAhead s), r2) = some (s2, r) →
      s2.t = s.t ∧ s2.i ≤ s2.t.length := by
    intro r2 hEq
    simp only [Option.some.injEq, Prod.mk.injEq] at hEq
    obtain ⟨h4, -⟩ := hEq
    rw [← h4]
    exact ⟨rfl, hase⟩
  rcases tk with s3 | k | s3 | l3
  case ident =>
    rcases hex : exhausted (cursorAhead s) with _ | ex <;>
      simp only [hex] at h
    · cases h
    split at h
    · exact hfin _ h
    · exact hfb h
  case kw =>
    rcases k with _ | _ | _ | _ | _ | _ | _ | _ | _ | _
    case kwModel =>
      rcases hent : attemptProcessEntityResult (cursorAhead s) with _ | p2 <;>
        simp only [hent, Option.map_some', Option.map_none'] at h
      · cases h
      obtain ⟨s3, r3⟩ := p2
      have hb := attemptProcessEntityResult_bound hent
      simp only [Option.some.injEq, Prod.mk.injEq] at h
      obtain ⟨h4, -⟩ := h
      rw [← h4]
      exact ⟨hb.1, hb.2⟩
    case kwSpace =>
      rcases hchir : cursorHasIdentRounded (cursorAhead s) with _ | g <;>
        simp only [hchir] at h
      · cases h
      split at h
      · rcases hfw2 : fwRead (cursorAhead s) with _ | p2 <;>
          simp only [hfw2] at h
        · cases h
        obtain ⟨tk2, s3⟩ := p2
        obtain ⟨rfl, hlt2⟩ := fwRead_dest hfw2
        have hlt2b : s.i + 1 < s.t.length := hlt2
        rcases hti : tokenIdentName tk2 with _ | sp <;> simp only [hti] at h
        · cases h
        simp only [Option.some.injEq, Prod.mk.injEq] at h
        obtain ⟨h4, -⟩ := h
        rw [← h4]
        refine ⟨rfl, ?_⟩
        show s.i + 1 + 1 ≤ s.t.length
        omega
      · exact hfb h
    all_goals exact hfb h
  all_goals exact hfb h

/-- C8: the parser state's poison flag is initialized to `true` by
`State::new` and is monotonic: whenever any state operation (poison,
poison_if, poison_if_not, and all cursor and read operations) succeeds on a
state whose flag is already false, the flag remains false; no operation
resets it to true. -/
theorem c8_poison_monotonic (t : List Token) (op : StateOp) (s s2 : PState)
    (h : applyOp op s = some s2) (hf : s.f = false) :
    (PState.new t).f = true ∧ s2.f = false := by
  refine ⟨rfl, ?_⟩
  cases op with
  | opPoison =>
    simp only [applyOp, Option.some.injEq] at h
    subst h
    rfl
  | opPoisonIf b =>
    simp only [applyOp, Option.some.injEq] at h
    subst h
    simp [poisonIf, hf]
  | opPoisonIfNot b =>
    simp only [applyOp, Option.some.injEq] at h
    subst h
    simp [poisonIfNot, poisonIf, hf]
  | opCursorAhead =>
    simp only [applyOp, Option.some.injEq] at h
    subst h
    exact hf
  | opCursorAheadBy n =>
    simp only [applyOp, Option.some.injEq] at h
    subst h
    exact hf
  | opCursorAheadIf b =>
    simp only [applyOp, Option.some.injEq] at h
    subst h
    exact hf
  | opCursorBack =>
    simp only [applyOp, cursorBack, cursorBackBy] at h
    split at h
    · simp only [Option.some.injEq] at h
      subst h
      exact hf
    · cases h
  | opCursorBackBy n =>
    simp only [applyOp, cursorBackBy] at h
    split at h
    · simp only [Option.some.injEq] at h
      subst h
      exact hf
    · cases h
  | opFwRead =>
    simp only [applyOp, fwRead, readTok] at h
    rcases hx : s.t[s.i]? with _ | x <;> simp only [hx] at h
    · cases h
    · simp only [Option.map_some', Option.some.injEq] at h
      subst h
      exact hf

/-- C8 witness: the theorem applied to a poisoned state and a cursor
advance. -/
theorem c8_poison_monotonic_witness :
    (PState.new [Token.kw .kwUse]).f = true ∧
    (⟨[Token.kw .kwUse], 1, false⟩ : PState).f = false :=
  c8_poison_monotonic [Token.kw .kwUse] .opCursorAhead
    ⟨[Token.kw .kwUse], 0, false⟩ ⟨[Token.kw .kwUse], 1, false⟩
    (by decide) (by decide)

/-- C9 counterexample: from a fresh state on a two-token slice,
`cursor_ahead_by(3)` (one of the parser's State operations) leaves the
state okay while the cursor (3) exceeds the token-slice length (2), so the
claimed invariant fails for arbitrary sequences of State operations. -/
theorem c9_cursor_overshoot_counterexample :
    okay (cursorAheadBy (PState.new [.ident "a", .ident "b"]) 3) = true ∧
    (cursorAheadBy (PState.new [.ident "a", .ident "b"]) 3).i = 3 ∧
    (cursorAheadBy (PState.new [.ident "a", .ident "b"]) 3).t.length = 2 := by
  refine ⟨rfl, rfl, rfl⟩

/-- C9 (amended): a fresh state satisfies cursor ≤ tokens.len, and every
parsing routine (the entity resolver, the drop and inspect sub-parsers)
preserves cursor ≤ tokens.len whenever it returns without panicking —
regardless of the poison flag; raw cursor movements such as
`cursor_ahead_by` are excluded, as the counterexample shows they can
overshoot without poisoning. -/
theorem c9_parser_routines_preserve_cursor_bound (t : List Token)
    (s : PState) :
    (PState.new t).i ≤ (PState.new t).t.length ∧
    (∀ s2 o, attemptProcessEntity s = some (s2, o) →
      s2.i ≤ s2.t.length) ∧
    (∀ s2 r, attemptProcessEntityResult s = some (s2, r) →
      s2.i ≤ s2.t.length) ∧
    (∀ s2 r, dropModelParse s = some (s2, r) → s2.i ≤ s2.t.length) ∧
    (∀ s2 r, dropSpaceParse s = some (s2, r) → s2.i ≤ s2.t.length) ∧
    (∀ s2 r, parseDrop s = some (s2, r) → s2.i ≤ s2.t.length) ∧
    (∀ s2 r, parseInspect s = some (s2, r) → s2.i ≤ s2.t.length) :=
  ⟨Nat.zero_le _,
    fun _ _ h => (attemptProcessEntity_bound h).2,
    fun _ _ h => (attemptProcessEntityResult_bound h).2,
    fun _ _ h => (dropModelParse_bound h).2,
    fun _ _ h => (dropSpaceParse_bound h).2,
    fun _ _ h => (parseDrop_bound h).2,
    fun _ _ h => (parseInspect_bound h).2⟩

/-- C9 witness: the amended theorem applied at concrete states. -/
theorem c9_parser_routines_preserve_cursor_bound_witness :
    (⟨[.ident "x"], 1, true⟩ : PState).i ≤
      (⟨[.ident "x"], 1, true⟩ : PState).t.length ∧
    (⟨[.kw .kwModel, .ident "x"], 2, true⟩ : PState).i ≤
      (⟨[.kw .kwModel, .ident "x"], 2, true⟩ : PState).t.length :=
  ⟨(c9_parser_routines_preserve_cursor_bound [] ⟨[.ident "x"], 0, true⟩).2.1
      ⟨[.ident "x"], 1, true⟩ (some (.Single "x")) (by decide),
    (c9_parser_routines_preserve_cursor_bound []
        ⟨[.kw .kwModel, .ident "x"], 0, true⟩).2.2.2.2.2.1
      ⟨[.kw .kwModel, .ident "x"], 2, true⟩
      (.ok (.DropModelStmt ⟨.Single "x", false⟩)) (by decide)⟩

/-- C1 (code bug): opening an existing SDSS file whose header decodes and
verifies does not write the bumped header over the beginning of the file.
`fread_exact` leaves the file position at `headerSize`, and the
`fsynced_write` of the bumped header (rw.rs:143) happens with no seek back
to offset 0, so it lands at offset `headerSize`: bytes `0..headerSize` of
the resulting file still hold the old header (its encoding differs from the
bumped one), while the bumped header overwrites the start of the body.  The
call does return `Existing` with the original header, as the claim says. -/
theorem c1_existing_header_written_at_wrong_offset :
    sdssExistingPath ⟨headerEncode gnsHeaderSample, 0⟩ .Journal .GNSTxn 1 =
      .ok (⟨headerEncode gnsHeaderSample ++
        headerEncode (bumpModifyCount gnsHeaderSample), 2 * headerSize⟩,
        gnsHeaderSample) ∧
    (headerEncode gnsHeaderSample ++
      headerEncode (bumpModifyCount gnsHeaderSample)).take headerSize =
      headerEncode gnsHeaderSample ∧
    headerEncode gnsHeaderSample ≠
      headerEncode (bumpModifyCount gnsHeaderSample) := by
  refine ⟨by decide, by decide, by decide⟩

/-- C2 (code bug): create an SDSS file with
`(Journal, GNSTxn, spec_ver 1, host_ver 3, Prod, startup 42)`, close, and
reopen with the same tuple: the reopen returns `Existing` with an identical
header tuple, but the on-disk header (bytes `0..headerSize`) still decodes
to the original header whose modify counter is 0 — not `0 + 1` as the claim
requires, because the bumped header is written at offset `headerSize`
rather than offset 0 (rw.rs:131-145, no seek before the write). -/
theorem c2_modify_counter_not_bumped_on_disk :
    sdssCreatedPath ⟨[], 0⟩ .Journal .GNSTxn 1 3 .Prod 42 =
      ⟨headerEncode gnsHeaderSample, headerSize⟩ ∧
    openOrCreatePermRw (.Existing ⟨headerEncode gnsHeaderSample, 0⟩)
      .Journal .GNSTxn 1 3 .Prod 42 =
      .ok (.Existing ⟨headerEncode gnsHeaderSample ++
        headerEncode (bumpModifyCount gnsHeaderSample), 2 * headerSize⟩
        gnsHeaderSample) ∧
    decodeNoverify ((headerEncode gnsHeaderSample ++
      headerEncode (bumpModifyCount gnsHeaderSample)).take headerSize) =
      some gnsHeaderSample ∧
    gnsHeaderSample.modifyCount = 0 := by
  refine ⟨by decide, by decide, by decide, by decide⟩

end Skytable
